import Mathlib

/-!
Verification of the teraboxmainbot job-distribution and multi-bot delivery
pipeline, against a shallow embedding of the Python sources.

Embedded components and their sources:
  - work queue            (src/queue/job_queue.py; Redis LPUSH / BRPOP list)
  - ffmpeg download       (src/downloader/ffmpeg_helper.py, download_m3u8)
  - multi-bot dispatcher  (src/uploader/multi_bot_manager.py)
  - upload retry loop     (src/uploader/telegram_uploader.py, upload_video)
  - job processor         (src/worker.py, process_job)
  - link normalization    (src/validators/link_validator.py)
  - dedup store           (src/cleanup_files.py, which despite its name is
                           the VideoRecord MongoDB models module of
                           database.models; save_video and the unique
                           link_hash index)

The file is organised with all definitions first, followed by the lemmas and
the claim theorems.
-/

namespace JobQueue

/-- The queue is the Redis list at key terabox:download_jobs.  push_job does
LPUSH, i.e. it prepends the serialized job to the left end of the list
(job_queue.py line 51). -/
def push_job (q : List α) (j : α) : List α := j :: q

/-- A sequence of push_job calls, oldest first. -/
def pushAll (q : List α) (js : List α) : List α := js.foldl push_job q

/-- BRPOP pops from the right end of the Redis list (job_queue.py line 76):
it yields the oldest element together with the remaining queue. -/
def brpop (q : List α) : Option (α × List α) :=
  match q.getLast? with
  | none => none
  | some j => some (j, q.dropLast)

/-- consume_jobs (job_queue.py lines 60-100): each iteration BRPOPs one job
and invokes the callback on it; a callback failure is only logged (inner
try/except at lines 87-91), the job is not re-queued, and the loop moves on.
The callback is modelled by the function handlerOk giving each job's outcome;
the result lists the (job, outcome) invocations in order, together with the
final queue.  Iteration is bounded by explicit fuel standing for the number
of loop iterations that find the queue non-empty. -/
def consume_jobs (handlerOk : α → Bool) : Nat → List α → List (α × Bool) × List α
  | 0, q => ([], q)
  | fuel + 1, q =>
    match brpop q with
    | none => ([], q)
    | some (j, q') =>
      let rest := consume_jobs handlerOk fuel q'
      ((j, handlerOk j) :: rest.1, rest.2)

end JobQueue

namespace Ffmpeg

/-- FFMPEG_TIMEOUT from src/config/constants.py line 33. -/
def FFMPEG_TIMEOUT : Nat := 3600

/-- Observable behaviour of one ffmpeg subprocess run, as download_m3u8 sees
it: whether some call inside the try body raised, the wall-clock seconds the
process took, its exit code, and whether the output file exists afterwards. -/
structure FfmpegRun where
  raises : Bool
  elapsed : Nat
  returncode : Int
  outputExists : Bool

/-- download_m3u8 (ffmpeg_helper.py lines 27-225).  The whole body sits in a
try/except returning None (lines 223-225); asyncio.wait_for with
FFMPEG_TIMEOUT kills the process and returns None on timeout (lines 181-187);
a non-zero exit code returns None (lines 219-221); exit code 0 with a missing
output file returns None (lines 216-218); otherwise the output path is
returned (line 215).  The Bool records whether process.kill() was called. -/
def download_m3u8 (outputPath : String) (r : FfmpegRun) : Option String × Bool :=
  if r.raises then (none, false)
  else if FFMPEG_TIMEOUT < r.elapsed then (none, true)
  else if r.returncode = 0 then
    if r.outputExists then (some outputPath, false) else (none, false)
  else (none, false)

end Ffmpeg

namespace LinkValidator

/-- Python strings are sequences of code points; we embed them as lists of
naturals.  isSpaceChar holds exactly the code points Python's str.strip()
with no argument removes (those with str.isspace() true): U+0009-U+000D,
the information separators U+001C-U+001F, space, next line U+0085,
no-break space U+00A0, ogham space mark U+1680, the U+2000-U+200A range,
line separator U+2028, paragraph separator U+2029, narrow no-break space
U+202F, medium mathematical space U+205F and ideographic space U+3000. -/
def isSpaceChar (c : Nat) : Bool :=
  (9 ≤ c && c ≤ 13) || (28 ≤ c && c ≤ 31) || c == 32 || c == 133 ||
    c == 160 || c == 5760 || (8192 ≤ c && c ≤ 8202) || c == 8232 ||
    c == 8233 || c == 8239 || c == 8287 || c == 12288

/-- str.strip(): remove leading and trailing whitespace. -/
def pyStrip (s : List Nat) : List Nat :=
  ((s.dropWhile isSpaceChar).reverse.dropWhile isSpaceChar).reverse

/-- str.rstrip with a slash argument: remove trailing slash (code 47)
characters. -/
def pyRstripSlash (s : List Nat) : List Nat :=
  (s.reverse.dropWhile (fun c => c == 47)).reverse

/-- str.lower() on one code point, given explicitly on the ASCII and
Latin-1 uppercase ranges: A-Z (65-90) and À-Þ (192-222) except the
multiplication sign × (215) map by +32; other code points are kept.
Keeping the remaining code points is conservative for every property used
below: Unicode lowercasing is idempotent at the string level and never
produces a slash or a whitespace character, which is all the theorems rely
on. -/
def pyLowerChar (c : Nat) : Nat :=
  if 65 ≤ c ∧ c ≤ 90 then c + 32
  else if 192 ≤ c ∧ c ≤ 222 ∧ c ≠ 215 then c + 32
  else c

/-- str.lower() on a string. -/
def pyLower (s : List Nat) : List Nat := s.map pyLowerChar

/-- normalize_terabox_url (link_validator.py lines 76-92):
url.strip().rstrip(slash) followed by lower(). -/
def normalize_terabox_url (s : List Nat) : List Nat :=
  pyLower (pyRstripSlash (pyStrip s))

end LinkValidator

namespace MultiBot

/-- Mutable state of MultiBotManager (multi_bot_manager.py lines 16-24)
relevant to selection: bot_valid_for_channel, unavailable_until (timestamps
as naturals) and current_index.  The clients list has the same length as
valid; initialization appends to all of them in lockstep (lines 60-64). -/
structure PoolState where
  valid : List Bool
  unavailableUntil : List Nat
  currentIndex : Nat
deriving DecidableEq

/-- The while loop of get_next_bot (multi_bot_manager.py lines 100-117):
at most (pool size) iterations; each reads the bot at the cursor, advances
the cursor by one modulo the pool size, skips the bot if it is invalid for
the channel or still unavailable, and otherwise returns it.  attemptsLeft
is the remaining iteration budget; the result pairs the selected index (if
any) with the final cursor. -/
def scanBots (valid : List Bool) (unavail : List Nat) (now : Nat) :
    Nat → Nat → Option Nat × Nat
  | 0, cursor => (none, cursor)
  | attemptsLeft + 1, cursor =>
    let cursor' := (cursor + 1) % valid.length
    if valid.getD cursor false then
      if unavail.getD cursor 0 ≤ now then (some cursor, cursor')
      else scanBots valid unavail now attemptsLeft cursor'
    else scanBots valid unavail now attemptsLeft cursor'

/-- get_next_bot (multi_bot_manager.py lines 88-121): runs the scan under
the manager lock with a budget of (pool size) iterations and persists the
advanced cursor.  Returns the selected bot index, or none if every bot is
invalid or unavailable. -/
def get_next_bot (now : Nat) (st : PoolState) : Option Nat × PoolState :=
  let r := scanBots st.valid st.unavailableUntil now st.valid.length st.currentIndex
  (r.1, { st with currentIndex := r.2 })

/-- mark_unavailable (multi_bot_manager.py lines 123-134):
unavailable_until[i] = now + waitSeconds. -/
def mark_unavailable (st : PoolState) (i : Nat) (waitSeconds : Nat) (now : Nat) :
    PoolState :=
  { st with unavailableUntil := st.unavailableUntil.set i (now + waitSeconds) }

/-- mark_invalid_for_channel (multi_bot_manager.py lines 136-147):
bot_valid_for_channel[i] = False, permanently. -/
def mark_invalid_for_channel (st : PoolState) (i : Nat) : PoolState :=
  { st with valid := st.valid.set i false }

/-- The operations that touch the identity table after initialization. -/
inductive PoolOp where
  | select (now : Nat)
  | markUnavail (i w now : Nat)
  | markInvalid (i : Nat)

def applyOp (st : PoolState) : PoolOp → PoolState
  | .select now => (get_next_bot now st).2
  | .markUnavail i w now => mark_unavailable st i w now
  | .markInvalid i => mark_invalid_for_channel st i

def runOps (st : PoolState) : List PoolOp → PoolState
  | [] => st
  | op :: ops => runOps (applyOp st op) ops

/-- A sequence of get_next_bot calls at one time, recording the returned
indices and threading the state. -/
def selectSeq (now : Nat) (st : PoolState) : Nat → List (Option Nat) × PoolState
  | 0 => ([], st)
  | k + 1 =>
    let r := get_next_bot now st
    let rest := selectSeq now r.2 k
    (r.1 :: rest.1, rest.2)

end MultiBot

namespace Uploader

/-- Outcome of one delivery attempt through a selected bot, as
upload_video's exception handlers classify it (telegram_uploader.py):
success (line 258), FloodWait with a wait duration (lines 260-268),
a peer/channel/write-forbidden error from the send (lines 270-296), a failed
pre-upload validate_chat_access check (lines 126-150), or any other
exception (lines 299-318). -/
inductive Outcome where
  | success
  | floodWait (w : Nat)
  | peerInvalid
  | validationFailed
  | otherError

/-- The retry loop of upload_video (telegram_uploader.py lines 99-321).
fuel is max_retries - retry_count (max_retries = number of clients, line
99); attempt numbers the current attempt so the environment o can script
each attempt's outcome.  Each iteration calls get_next_bot and fails
immediately if it returns none (lines 105-109); a FloodWait marks the bot
unavailable and retries (lines 260-268); a peer error or failed validation
marks the bot invalid for the channel and retries (lines 126-150, 270-296);
any other error retries without touching bot state (lines 299-318); success
stops the loop (line 258).  The result is (success flag, final pool state,
number of delivery attempts consumed). -/
def uploadLoop (o : Nat → Outcome) (now : Nat) :
    Nat → Nat → MultiBot.PoolState → Bool × MultiBot.PoolState × Nat
  | 0, _, st => (false, st, 0)
  | fuel + 1, attempt, st =>
    let r := MultiBot.get_next_bot now st
    match r.1 with
    | none => (false, r.2, 0)
    | some i =>
      match o attempt with
      | .success => (true, r.2, 1)
      | .floodWait w =>
        let rest := uploadLoop o now fuel (attempt + 1)
          (MultiBot.mark_unavailable r.2 i w now)
        (rest.1, rest.2.1, rest.2.2 + 1)
      | .peerInvalid =>
        let rest := uploadLoop o now fuel (attempt + 1)
          (MultiBot.mark_invalid_for_channel r.2 i)
        (rest.1, rest.2.1, rest.2.2 + 1)
      | .validationFailed =>
        let rest := uploadLoop o now fuel (attempt + 1)
          (MultiBot.mark_invalid_for_channel r.2 i)
        (rest.1, rest.2.1, rest.2.2 + 1)
      | .otherError =>
        let rest := uploadLoop o now fuel (attempt + 1) r.2
        (rest.1, rest.2.1, rest.2.2 + 1)

/-- upload_video (telegram_uploader.py lines 69-321): a missing artifact
file returns False before the loop (lines 95-97); otherwise the retry loop
runs with a budget of (pool size) attempts. -/
def upload_video (fileExists : Bool) (o : Nat → Outcome) (now : Nat)
    (st : MultiBot.PoolState) : Bool × MultiBot.PoolState × Nat :=
  if fileExists then uploadLoop o now st.valid.length 0 st
  else (false, st, 0)

end Uploader

namespace Dedup

/-- The document save_video inserts (src/cleanup_files.py — the file is the
VideoRecord MongoDB models module despite its name — lines 97-104):
link_hash, original_link, channel_message_id, file_id, file_size,
created_at.  Values are embedded as opaque naturals. -/
structure VideoDoc where
  linkHash : Nat
  originalLink : Nat
  channelMessageId : Nat
  fileId : Nat
  fileSize : Nat
  createdAt : Nat
deriving DecidableEq

/-- How one insert_one call against the videos collection ends. -/
inductive InsertResult where
  | ok
  | duplicateKey
  | otherError
deriving DecidableEq

/-- collection.insert_one under the unique index on link_hash created by
create_indexes (cleanup_files.py line 34): it raises a duplicate-key error
(E11000), leaving the store unchanged, exactly when a record with the same
link_hash already exists; any other database failure (modelled by the
dbError flag) also leaves the store unchanged; otherwise the document is
stored. -/
def insert_one (store : List VideoDoc) (r : VideoDoc) (dbError : Bool) :
    InsertResult × List VideoDoc :=
  if dbError then (InsertResult.otherError, store)
  else if store.any (fun q => q.linkHash == r.linkHash) then
    (InsertResult.duplicateKey, store)
  else (InsertResult.ok, r :: store)

/-- save_video (cleanup_files.py lines 75-120): insert the document and
return True; on an exception whose text marks a duplicate key (E11000,
lines 111-116) return True — the record already exists, the expected
outcome of a race; on any other error return False (lines 117-120). -/
def save_video (store : List VideoDoc) (r : VideoDoc) (dbError : Bool) :
    Bool × List VideoDoc :=
  match insert_one store r dbError with
  | (InsertResult.ok, s) => (true, s)
  | (InsertResult.duplicateKey, s) => (true, s)
  | (InsertResult.otherError, s) => (false, s)

/-- Number of stored records with the given hash. -/
def countHash (store : List VideoDoc) (h : Nat) : Nat :=
  store.countP (fun q => q.linkHash == h)

end Dedup

namespace Worker

/-- Whether an unexpected exception interrupts the try body of process_job,
and where: before the resolution step (for example the failure notification
at worker.py line 222 itself raising), or after the download and thumbnail
stage, before delivery completes (for example line 439 raising). -/
inductive RaiseAt where
  | never
  | beforeResolve
  | afterThumbStage
deriving DecidableEq

/-- Scripted environment for one process_job run (worker.py lines 200-493):
outcome of the resolution API call, of the m3u8 parse, of the ffmpeg
download (and whether a failed download leaves a half-written file), of the
thumbnail download, of the channel upload, of the best-effort copy of the
uploaded video to the user (telegram_uploader.py lines 196-258), and the
exception point. -/
structure JobEnv where
  resolves : Bool
  parses : Bool
  downloadOk : Bool
  downloadDebris : Bool
  hasThumbUrl : Bool
  thumbOk : Bool
  uploadOk : Bool
  userCopyOk : Bool
  raiseAt : RaiseAt

/-- The temporary files a job can create: the downloaded video
terabox_hash.mp4 (worker.py line 239) and the thumbnail thumb_hash.jpg
(line 334).  The embedded-video path final_hash.mp4 (line 335) is only ever
a path: FFmpegHelper (ffmpeg_helper.py) has no embed_thumbnail method, so
the call at worker.py line 344 always raises AttributeError, which the
handler at line 359 catches, falling back to the original video — no third
file is ever written. -/
inductive TempFile where
  | video
  | thumb
deriving DecidableEq

/-- Messages process_job can send to the user as terminal notifications. -/
inductive UserMsg where
  | errDownloadFailed
  | errUploadFailed
  | errProcessing
  | videoDelivered
deriving DecidableEq

/-- The names worker.py imports from config.constants (lines 11-17). -/
def workerConstantImports : List String :=
  ["ERROR_DOWNLOAD_FAILED", "ERROR_UPLOAD_FAILED", "MSG_DOWNLOADING",
    "MSG_UPLOADING", "MSG_SUCCESS"]

/-- The terminal messages produced by the generic exception handler
(worker.py lines 467-472): it evaluates the name ERROR_PROCESSING, which is
only defined if imported from config.constants; otherwise the lookup raises
NameError, which the bare except swallows, and nothing is sent. -/
def exceptionMessages : List UserMsg :=
  if "ERROR_PROCESSING" ∈ workerConstantImports then [UserMsg.errProcessing]
  else []

/-- Result of one process_job execution: the terminal messages sent to the
user, the temporary files still on disk at termination, every temporary
file the job created at some point, and the file that was (or would have
been) handed to the uploader. -/
structure JobResult where
  messages : List UserMsg
  disk : List TempFile
  created : List TempFile
  uploaded : Option TempFile
deriving DecidableEq

/-- process_job (worker.py lines 200-493).  Control flow: resolution
failure, parse failure and download failure each send ERROR_DOWNLOAD_FAILED
and return (lines 218-314); after a successful download the optional
thumbnail is fetched (lines 323-362), and the embedding call at line 344
always raises AttributeError (FFmpegHelper has no embed_thumbnail method),
caught at line 359, so downloaded_file stays the original video; upload
failure sends ERROR_UPLOAD_FAILED and returns (lines 437-440); on success
upload_video has posted the video to the channel and copied it to the user
(telegram_uploader.py lines 196-258) — that copy is the terminal content
message, and when it fails the except at line 254 swallows the error and
upload_video still returns True, so the user gets nothing; the success-path
cleanup at worker.py lines 445-457 removes the thumbnail (the
original-video branch never fires since no embedded video exists).  An
unexpected exception reaches the handler at lines 467-472, which produces
exceptionMessages.  The finally block (lines 474-493) deletes only
downloaded_file when it is set, else file_path. -/
def process_job (env : JobEnv) : JobResult :=
  if env.raiseAt = RaiseAt.beforeResolve then
    ⟨exceptionMessages, [], [], none⟩
  else if !env.resolves then ⟨[UserMsg.errDownloadFailed], [], [], none⟩
  else if !env.parses then ⟨[UserMsg.errDownloadFailed], [], [], none⟩
  else if !env.downloadOk then
    ⟨[UserMsg.errDownloadFailed], [],
      if env.downloadDebris then [TempFile.video] else [], none⟩
  else
    let thumbCreated := env.hasThumbUrl && env.thumbOk
    let created :=
      (if thumbCreated then [TempFile.thumb] else []) ++ [TempFile.video]
    if env.raiseAt = RaiseAt.afterThumbStage then
      ⟨exceptionMessages, created.erase TempFile.video, created,
        some TempFile.video⟩
    else if !env.uploadOk then
      ⟨[UserMsg.errUploadFailed], created.erase TempFile.video, created,
        some TempFile.video⟩
    else
      let msgs := if env.userCopyOk then [UserMsg.videoDelivered] else []
      let disk2 := if thumbCreated then created.erase TempFile.thumb else created
      ⟨msgs, disk2.erase TempFile.video, created, some TempFile.video⟩

/-- Whether, on this environment, the unexpected exception actually fires
(an afterThumbStage exception is only reachable once resolution, parse and
download have all succeeded). -/
def raiseFires (env : JobEnv) : Bool :=
  env.raiseAt = RaiseAt.beforeResolve ||
    (env.raiseAt = RaiseAt.afterThumbStage && env.resolves && env.parses &&
      env.downloadOk)

/-- Whether the job reaches the success return of upload_video (channel
upload done; the user copy may still have failed). -/
def deliverySucceeds (env : JobEnv) : Bool :=
  env.resolves && env.parses && env.downloadOk && env.uploadOk &&
    decide (env.raiseAt = RaiseAt.never)

end Worker

/-! Lemmas and claim theorems. -/

namespace JobQueue

theorem pushAll_eq_reverse_append (js : List α) :
    ∀ q : List α, pushAll q js = js.reverse ++ q := by
  induction js with
  | nil => intro q; rfl
  | cons x xs ih =>
    intro q
    simp only [pushAll, List.foldl_cons] at *
    rw [ih (push_job q x)]
    simp [push_job]

theorem brpop_concat (q : List α) (j : α) :
    brpop (q ++ [j]) = some (j, q) := by
  simp [brpop, List.getLast?_concat, List.dropLast_concat]

theorem consume_jobs_spec (f : α → Bool) (q : List α) :
    consume_jobs f q.length q = (q.reverse.map (fun j => (j, f j)), []) := by
  induction q using List.reverseRecOn with
  | nil => rfl
  | append_singleton ys y ih =>
    have hlen : (ys ++ [y]).length = ys.length + 1 := by simp
    rw [hlen]
    simp only [consume_jobs, brpop_concat, ih]
    simp

end JobQueue

namespace LinkValidator

theorem dropWhile_of_all_false {p : Nat → Bool} {l : List Nat}
    (h : ∀ c ∈ l, p c = false) : l.dropWhile p = l := by
  cases l with
  | nil => rfl
  | cons a l => simp [List.dropWhile_cons, h a (List.mem_cons_self a l)]

theorem dropWhile_dropWhile (p : Nat → Bool) (l : List Nat) :
    (l.dropWhile p).dropWhile p = l.dropWhile p := by
  induction l with
  | nil => rfl
  | cons a l ih =>
    by_cases hpa : p a = true
    · simp [List.dropWhile_cons, hpa, ih]
    · simp only [Bool.not_eq_true] at hpa
      simp [List.dropWhile_cons, hpa]

theorem mem_of_mem_dropWhile {p : Nat → Bool} {l : List Nat} {x : Nat}
    (h : x ∈ l.dropWhile p) : x ∈ l :=
  (List.dropWhile_sublist p).mem h

theorem pyLowerChar_lower (c : Nat) :
    pyLowerChar (pyLowerChar c) = pyLowerChar c := by
  simp only [pyLowerChar]
  split_ifs <;> omega

theorem pyLowerChar_eq_slash (c : Nat) :
    (pyLowerChar c == 47) = (c == 47) := by
  simp only [pyLowerChar]
  split_ifs with h1 h2
  · have ha : (c + 32 == 47) = false := by
      simp only [beq_eq_false_iff_ne, ne_eq]
      omega
    have hb : (c == 47) = false := by
      simp only [beq_eq_false_iff_ne, ne_eq]
      omega
    rw [ha, hb]
  · have ha : (c + 32 == 47) = false := by
      simp only [beq_eq_false_iff_ne, ne_eq]
      omega
    have hb : (c == 47) = false := by
      simp only [beq_eq_false_iff_ne, ne_eq]
      omega
    rw [ha, hb]
  · rfl

theorem pyLowerChar_space (c : Nat) (h : isSpaceChar c = false) :
    isSpaceChar (pyLowerChar c) = false := by
  simp only [isSpaceChar, pyLowerChar] at *
  split_ifs with h1 h2 <;>
    simp only [Bool.or_eq_false_iff, Bool.and_eq_false_iff,
      beq_eq_false_iff_ne, ne_eq, decide_eq_false_iff_not, not_le,
      not_and, not_lt] at h ⊢ <;>
    omega

/-- Elements of pyRstripSlash s come from s. -/
theorem mem_of_mem_pyRstripSlash {s : List Nat} {x : Nat}
    (h : x ∈ pyRstripSlash s) : x ∈ s := by
  simp only [pyRstripSlash, List.mem_reverse] at h
  exact List.mem_reverse.mp (mem_of_mem_dropWhile h)

/-- On whitespace-free strings pyStrip is the identity. -/
theorem pyStrip_of_nospace {s : List Nat}
    (h : ∀ c ∈ s, isSpaceChar c = false) : pyStrip s = s := by
  have h1 : s.dropWhile isSpaceChar = s := dropWhile_of_all_false h
  have h2 : s.reverse.dropWhile isSpaceChar = s.reverse :=
    dropWhile_of_all_false (fun c hc => h c (List.mem_reverse.mp hc))
  simp [pyStrip, h1, h2]

/-- pyRstripSlash commutes with pyLower because lowering neither creates nor
destroys a slash character. -/
theorem pyRstripSlash_pyLower (s : List Nat) :
    pyRstripSlash (pyLower s) = pyLower (pyRstripSlash s) := by
  simp only [pyRstripSlash, pyLower]
  have hp : ((fun c => c == 47) ∘ pyLowerChar) = (fun c => c == 47) := by
    funext c
    simp only [Function.comp_apply]
    exact pyLowerChar_eq_slash c
  have h1 : (List.map pyLowerChar s).reverse = List.map pyLowerChar s.reverse := by
    simp
  rw [h1, List.dropWhile_map, hp]
  simp

theorem pyRstripSlash_idem (s : List Nat) :
    pyRstripSlash (pyRstripSlash s) = pyRstripSlash s := by
  simp [pyRstripSlash, dropWhile_dropWhile]

theorem pyLower_idem (s : List Nat) : pyLower (pyLower s) = pyLower s := by
  simp only [pyLower, List.map_map]
  apply List.map_congr_left
  intro c _
  exact pyLowerChar_lower c

/-- Characters of a whitespace-free string stay whitespace-free through
normalization. -/
theorem normalize_nospace {s : List Nat}
    (h : ∀ c ∈ s, isSpaceChar c = false) :
    ∀ c ∈ normalize_terabox_url s, isSpaceChar c = false := by
  intro c hc
  simp only [normalize_terabox_url, pyStrip_of_nospace h, pyLower,
    List.mem_map] at hc
  obtain ⟨a, ha, rfl⟩ := hc
  exact pyLowerChar_space a (h a (mem_of_mem_pyRstripSlash ha))

end LinkValidator

namespace MultiBot

theorem getD_true_lt {l : List Bool} {i : Nat} (h : l.getD i false = true) :
    i < l.length := by
  by_contra hge
  rw [List.getD_eq_default] at h
  · exact Bool.false_ne_true h
  · omega

theorem getD_set_false : ∀ (l : List Bool) (i j : Nat),
    l.getD i false = false → (l.set j false).getD i false = false := by
  intro l
  induction l with
  | nil => intro i j h; simp [List.set]
  | cons a l ih =>
    intro i j h
    cases j with
    | zero =>
      cases i with
      | zero => simp
      | succ i => simpa using h
    | succ j =>
      cases i with
      | zero => simpa using h
      | succ i =>
        simp only [List.set, List.getD_cons_succ] at *
        exact ih i j h

theorem getD_set_eq : ∀ (l : List Nat) (i : Nat) (x : Nat), i < l.length →
    (l.set i x).getD i 0 = x := by
  intro l
  induction l with
  | nil => intro i x h; simp at h
  | cons a l ih =>
    intro i x h
    cases i with
    | zero => simp
    | succ i =>
      simp only [List.set, List.getD_cons_succ]
      exact ih i x (by simpa using h)

theorem scanBots_some {v : List Bool} {u : List Nat} {now : Nat} :
    ∀ {k cursor i c'}, scanBots v u now k cursor = (some i, c') →
      v.getD i false = true ∧ u.getD i 0 ≤ now := by
  intro k
  induction k with
  | zero =>
    intro cursor i c' h
    simp [scanBots] at h
  | succ k ih =>
    intro cursor i c' h
    simp only [scanBots] at h
    by_cases hv : v.getD cursor false = true
    · by_cases hu : u.getD cursor 0 ≤ now
      · rw [if_pos hv, if_pos hu] at h
        injection h with h1 h2
        injection h1 with h1
        subst h1
        exact ⟨hv, hu⟩
      · rw [if_pos hv, if_neg hu] at h
        exact ih h
    · rw [if_neg hv] at h
      exact ih h

theorem scanBots_cursor_lt {v : List Bool} {u : List Nat} {now : Nat}
    (hn : 0 < v.length) :
    ∀ (k cursor : Nat), (scanBots v u now (k + 1) cursor).2 < v.length := by
  intro k
  induction k with
  | zero =>
    intro cursor
    rw [scanBots]
    split_ifs
    · exact Nat.mod_lt _ hn
    · simp only [scanBots]
      exact Nat.mod_lt _ hn
    · simp only [scanBots]
      exact Nat.mod_lt _ hn
  | succ k ih =>
    intro cursor
    rw [scanBots]
    split_ifs
    · exact Nat.mod_lt _ hn
    · exact ih ((cursor + 1) % v.length)
    · exact ih ((cursor + 1) % v.length)

theorem scanBots_none_visited {v : List Bool} {u : List Nat} {now : Nat} :
    ∀ (k cursor : Nat), cursor < v.length →
      (scanBots v u now k cursor).1 = none →
      ∀ j < k, v.getD ((cursor + j) % v.length) false = false ∨
        now < u.getD ((cursor + j) % v.length) 0 := by
  intro k
  induction k with
  | zero => intro cursor _ _ j hj; omega
  | succ k ih =>
    intro cursor hcur hnone j hj
    have hn : 0 < v.length := Nat.lt_of_le_of_lt (Nat.zero_le _) hcur
    have hcmod : cursor % v.length = cursor := Nat.mod_eq_of_lt hcur
    simp only [scanBots] at hnone
    by_cases hv : v.getD cursor false = true
    · by_cases hu : u.getD cursor 0 ≤ now
      · rw [if_pos hv, if_pos hu] at hnone
        exact absurd hnone (by simp)
      · simp only [hv, if_true, if_neg hu] at hnone
        cases j with
        | zero =>
          right
          rw [Nat.add_zero, hcmod]
          omega
        | succ j =>
          have hrec := ih ((cursor + 1) % v.length)
            (Nat.mod_lt _ hn) hnone j (by omega)
          rwa [Nat.mod_add_mod, show cursor + 1 + j = cursor + (j + 1) by omega]
            at hrec
    · simp only [Bool.not_eq_true] at hv
      simp only [hv, Bool.false_eq_true, if_false] at hnone
      cases j with
      | zero =>
        left
        rw [Nat.add_zero, hcmod]
        exact hv
      | succ j =>
        have hrec := ih ((cursor + 1) % v.length)
          (Nat.mod_lt _ hn) hnone j (by omega)
        rwa [Nat.mod_add_mod, show cursor + 1 + j = cursor + (j + 1) by omega]
          at hrec

theorem scanBots_none_of_all_fail {v : List Bool} {u : List Nat} {now : Nat}
    (hfail : ∀ i < v.length,
      v.getD i false = false ∨ now < u.getD i 0) :
    ∀ (k cursor : Nat), cursor < v.length →
      (scanBots v u now k cursor).1 = none := by
  intro k
  induction k with
  | zero => intro cursor _; rfl
  | succ k ih =>
    intro cursor hcur
    have hn : 0 < v.length := Nat.lt_of_le_of_lt (Nat.zero_le _) hcur
    simp only [scanBots]
    rcases hfail cursor hcur with hv | hu
    · simp only [hv, Bool.false_eq_true, if_false]
      exact ih ((cursor + 1) % v.length) (Nat.mod_lt _ hn)
    · by_cases hv : v.getD cursor false = true
      · simp only [hv, if_true, if_neg (by omega : ¬ u.getD cursor 0 ≤ now)]
        exact ih ((cursor + 1) % v.length) (Nat.mod_lt _ hn)
      · simp only [Bool.not_eq_true] at hv
        simp only [hv, Bool.false_eq_true, if_false]
        exact ih ((cursor + 1) % v.length) (Nat.mod_lt _ hn)

theorem exists_shift {n cursor i : Nat} (hc : cursor < n) (hi : i < n) :
    ∃ j, j < n ∧ (cursor + j) % n = i := by
  by_cases h : cursor ≤ i
  · refine ⟨i - cursor, by omega, ?_⟩
    rw [Nat.add_sub_cancel' h]
    exact Nat.mod_eq_of_lt hi
  · refine ⟨i + n - cursor, by omega, ?_⟩
    rw [show cursor + (i + n - cursor) = i + n by omega, Nat.add_mod_right]
    exact Nat.mod_eq_of_lt hi

theorem get_next_bot_none_iff (now : Nat) (st : PoolState)
    (hcur : st.currentIndex < st.valid.length) :
    (get_next_bot now st).1 = none ↔
      ∀ i < st.valid.length, st.valid.getD i false = false ∨
        now < st.unavailableUntil.getD i 0 := by
  constructor
  · intro hnone i hi
    have hvisit := @scanBots_none_visited st.valid st.unavailableUntil now
      st.valid.length st.currentIndex hcur hnone
    obtain ⟨j, hj, hji⟩ := exists_shift hcur hi
    have := hvisit j hj
    rwa [hji] at this
  · intro hfail
    exact scanBots_none_of_all_fail hfail st.valid.length st.currentIndex hcur

theorem get_next_bot_some {now : Nat} {st : PoolState} {i : Nat}
    (h : (get_next_bot now st).1 = some i) :
    i < st.valid.length ∧ st.valid.getD i false = true ∧
      st.unavailableUntil.getD i 0 ≤ now := by
  have hscan : (scanBots st.valid st.unavailableUntil now
      st.valid.length st.currentIndex).1 = some i := h
  obtain ⟨c', hc'⟩ : ∃ c', scanBots st.valid st.unavailableUntil now
      st.valid.length st.currentIndex = (some i, c') := by
    refine ⟨(scanBots st.valid st.unavailableUntil now
      st.valid.length st.currentIndex).2, ?_⟩
    rw [← hscan]
  obtain ⟨hv, hu⟩ := scanBots_some hc'
  exact ⟨getD_true_lt hv, hv, hu⟩

theorem applyOp_valid_false {st : PoolState} {i : Nat}
    (h : st.valid.getD i false = false) :
    ∀ op, (applyOp st op).valid.getD i false = false := by
  intro op
  cases op with
  | select now => exact h
  | markUnavail j w tnow => exact h
  | markInvalid j => exact getD_set_false st.valid i j h

theorem runOps_valid_false {i : Nat} :
    ∀ (ops : List PoolOp) (st : PoolState),
      st.valid.getD i false = false →
      (runOps st ops).valid.getD i false = false := by
  intro ops
  induction ops with
  | nil => intro st h; exact h
  | cons op ops ih =>
    intro st h
    exact ih (applyOp st op) (applyOp_valid_false h op)

theorem get_next_bot_all_avail {v : List Bool} {u : List Nat}
    (now cursor : Nat) (hcur : cursor < v.length)
    (hall : ∀ i < v.length, v.getD i false = true ∧ u.getD i 0 ≤ now) :
    get_next_bot now ⟨v, u, cursor⟩ =
      (some cursor, ⟨v, u, (cursor + 1) % v.length⟩) := by
  obtain ⟨hv, hu⟩ := hall cursor hcur
  obtain ⟨k, hk⟩ : ∃ k, v.length = k + 1 := ⟨v.length - 1, by omega⟩
  have hscan : scanBots v u now (k + 1) cursor =
      (some cursor, (cursor + 1) % v.length) := by
    rw [scanBots, if_pos hv, if_pos hu]
  have hfuel : scanBots v u now v.length cursor =
      scanBots v u now (k + 1) cursor := by rw [hk]
  simp only [get_next_bot, hfuel, hscan]

theorem selectSeq_all_avail {v : List Bool} {u : List Nat} {now : Nat}
    (hall : ∀ i < v.length, v.getD i false = true ∧ u.getD i 0 ≤ now) :
    ∀ (k cursor : Nat), cursor < v.length →
      (selectSeq now ⟨v, u, cursor⟩ k).1 =
        (List.range k).map (fun j => some ((cursor + j) % v.length)) ∧
      (selectSeq now ⟨v, u, cursor⟩ k).2 = ⟨v, u, (cursor + k) % v.length⟩ := by
  intro k
  induction k with
  | zero =>
    intro cursor hcur
    refine ⟨rfl, ?_⟩
    simp [selectSeq, Nat.mod_eq_of_lt hcur]
  | succ k ih =>
    intro cursor hcur
    have hn : 0 < v.length := Nat.lt_of_le_of_lt (Nat.zero_le _) hcur
    have hgb := @get_next_bot_all_avail v u now cursor hcur hall
    have hcur' : (cursor + 1) % v.length < v.length := Nat.mod_lt _ hn
    obtain ⟨ih1, ih2⟩ := ih ((cursor + 1) % v.length) hcur'
    constructor
    · simp only [selectSeq, hgb, ih1]
      rw [List.range_succ_eq_map, List.map_cons, List.map_map]
      congr 1
      · rw [Nat.add_zero, Nat.mod_eq_of_lt hcur]
      · apply List.map_congr_left
        intro j _
        simp only [Function.comp_apply]
        rw [Nat.mod_add_mod, show cursor + 1 + j = cursor + (j + 1) by omega]
    · simp only [selectSeq, hgb, ih2]
      rw [Nat.mod_add_mod, show cursor + 1 + k = cursor + (k + 1) by omega]

theorem mod_shift_inj {n cursor : Nat} {i j : Nat} (hi : i < n) (hj : j < n)
    (h : (cursor + i) % n = (cursor + j) % n) : i = j := by
  have hme : Nat.ModEq n (cursor + i) (cursor + j) := h
  have hij : Nat.ModEq n i j := Nat.ModEq.add_left_cancel' cursor hme
  rwa [Nat.ModEq, Nat.mod_eq_of_lt hi, Nat.mod_eq_of_lt hj] at hij

end MultiBot

namespace Uploader

theorem uploadLoop_attempts_le (o : Nat → Outcome) (now : Nat) :
    ∀ (fuel attempt : Nat) (st : MultiBot.PoolState),
      (uploadLoop o now fuel attempt st).2.2 ≤ fuel := by
  intro fuel
  induction fuel with
  | zero => intro attempt st; simp [uploadLoop]
  | succ fuel ih =>
    intro attempt st
    simp only [uploadLoop]
    cases hgb : (MultiBot.get_next_bot now st).1 with
    | none => simp
    | some i =>
      cases ho : o attempt with
      | success => simp
      | floodWait w =>
        simp only []
        have := ih (attempt + 1)
          (MultiBot.mark_unavailable (MultiBot.get_next_bot now st).2 i w now)
        omega
      | peerInvalid =>
        simp only []
        have := ih (attempt + 1)
          (MultiBot.mark_invalid_for_channel (MultiBot.get_next_bot now st).2 i)
        omega
      | validationFailed =>
        simp only []
        have := ih (attempt + 1)
          (MultiBot.mark_invalid_for_channel (MultiBot.get_next_bot now st).2 i)
        omega
      | otherError =>
        simp only []
        have := ih (attempt + 1) (MultiBot.get_next_bot now st).2
        omega

theorem uploadLoop_no_success (o : Nat → Outcome) (now : Nat)
    (h : ∀ a, o a ≠ Outcome.success) :
    ∀ (fuel attempt : Nat) (st : MultiBot.PoolState),
      (uploadLoop o now fuel attempt st).1 = false := by
  intro fuel
  induction fuel with
  | zero => intro attempt st; rfl
  | succ fuel ih =>
    intro attempt st
    simp only [uploadLoop]
    cases hgb : (MultiBot.get_next_bot now st).1 with
    | none => rfl
    | some i =>
      cases ho : o attempt with
      | success => exact absurd ho (h attempt)
      | floodWait w => exact ih (attempt + 1) _
      | peerInvalid => exact ih (attempt + 1) _
      | validationFailed => exact ih (attempt + 1) _
      | otherError => exact ih (attempt + 1) _

end Uploader

/-- Claim C4: N pushes with distinct payloads followed by N dequeues by a
single consumer deliver the payloads to the handler in exactly push order
(push appends to one end of the Redis list, pop removes from the other). -/
theorem c4_fifo_order (xs : List α) (f : α → Bool) (hnd : xs.Nodup) :
    ((JobQueue.consume_jobs f xs.length (JobQueue.pushAll [] xs)).1).map Prod.fst = xs ∧
    (JobQueue.consume_jobs f xs.length (JobQueue.pushAll [] xs)).2 = [] := by
  have hq : JobQueue.pushAll ([] : List α) xs = xs.reverse := by
    rw [JobQueue.pushAll_eq_reverse_append]; simp
  have hlen : xs.length = xs.reverse.length := by simp
  rw [hq, hlen, JobQueue.consume_jobs_spec]
  simp [Function.comp_def]

/-- Concrete instance of c4_fifo_order on the queue [10, 20, 30]. -/
theorem c4_fifo_order_witness :
    ((JobQueue.consume_jobs (fun _ => true) 3
        (JobQueue.pushAll [] [10, 20, 30])).1).map Prod.fst = [10, 20, 30] :=
  (c4_fifo_order [10, 20, 30] (fun _ => true) (by decide)).1

/-- Claim C7: a dequeued job whose handler raises is not requeued or retried
(the final queue is empty and each job is handled exactly once), the
invocation sequence does not depend on which handlers fail (the loop
continues rather than crashing), so queue delivery is at-most-once. -/
theorem c7_at_most_once_no_requeue (q : List α) (f g : α → Bool) :
    ((JobQueue.consume_jobs f q.length q).1).map Prod.fst = q.reverse ∧
    (JobQueue.consume_jobs f q.length q).2 = [] ∧
    ((JobQueue.consume_jobs f q.length q).1).map Prod.fst =
      ((JobQueue.consume_jobs g q.length q).1).map Prod.fst := by
  rw [JobQueue.consume_jobs_spec, JobQueue.consume_jobs_spec]
  simp [Function.comp_def]

/-- Claim C8: download_m3u8 returns the output path exactly when the
subprocess finishes within FFMPEG_TIMEOUT with exit code 0 and the output
file exists; in every other case (internal exception, timeout with the
process killed, non-zero exit, missing file) it returns None and never
propagates an exception. -/
theorem c8_download_contract (p : String) (r : Ffmpeg.FfmpegRun) :
    ((Ffmpeg.download_m3u8 p r).1 = some p ↔
      r.raises = false ∧ r.elapsed ≤ Ffmpeg.FFMPEG_TIMEOUT ∧
      r.returncode = 0 ∧ r.outputExists = true) ∧
    ((Ffmpeg.download_m3u8 p r).1 = none ∨ (Ffmpeg.download_m3u8 p r).1 = some p) ∧
    (r.raises = false → Ffmpeg.FFMPEG_TIMEOUT < r.elapsed →
      Ffmpeg.download_m3u8 p r = (none, true)) := by
  rcases r with ⟨ra, el, rc, ex⟩
  simp only [Ffmpeg.download_m3u8, Ffmpeg.FFMPEG_TIMEOUT]
  cases ra <;> cases ex <;> split_ifs <;> simp_all <;> omega

/-- Concrete instance of c8_download_contract: a clean 100-second run with
exit code 0 and an existing output file returns the path. -/
theorem c8_download_contract_witness :
    (Ffmpeg.download_m3u8 "out.mp4" ⟨false, 100, 0, true⟩).1 = some "out.mp4" :=
  (c8_download_contract "out.mp4" ⟨false, 100, 0, true⟩).1.mpr (by decide)

/-- Claim C1: upload_video makes at most (pool size) delivery attempts; it
fails without any attempt when the artifact file is missing; an iteration
whose get_next_bot returns none fails immediately; a successful attempt
stops the loop with success; a FloodWait outcome marks the bot unavailable
and continues; a peer error or failed pre-upload validation marks the bot
permanently invalid and continues; any other error continues without
mutating bot state; and if no attempt succeeds the upload returns
failure. -/
theorem c1_upload_retry_loop (o : Nat → Uploader.Outcome) (now : Nat)
    (st : MultiBot.PoolState) :
    (Uploader.upload_video false o now st = (false, st, 0)) ∧
    ((Uploader.upload_video true o now st).2.2 ≤ st.valid.length) ∧
    (∀ fuel attempt (st' : MultiBot.PoolState),
      (MultiBot.get_next_bot now st').1 = none →
      Uploader.uploadLoop o now (fuel + 1) attempt st' =
        (false, (MultiBot.get_next_bot now st').2, 0)) ∧
    (∀ fuel attempt (st' : MultiBot.PoolState) i,
      (MultiBot.get_next_bot now st').1 = some i →
      o attempt = Uploader.Outcome.success →
      Uploader.uploadLoop o now (fuel + 1) attempt st' =
        (true, (MultiBot.get_next_bot now st').2, 1)) ∧
    (∀ fuel attempt (st' : MultiBot.PoolState) i w,
      (MultiBot.get_next_bot now st').1 = some i →
      o attempt = Uploader.Outcome.floodWait w →
      Uploader.uploadLoop o now (fuel + 1) attempt st' =
        ((Uploader.uploadLoop o now fuel (attempt + 1)
            (MultiBot.mark_unavailable
              (MultiBot.get_next_bot now st').2 i w now)).1,
          (Uploader.uploadLoop o now fuel (attempt + 1)
            (MultiBot.mark_unavailable
              (MultiBot.get_next_bot now st').2 i w now)).2.1,
          (Uploader.uploadLoop o now fuel (attempt + 1)
            (MultiBot.mark_unavailable
              (MultiBot.get_next_bot now st').2 i w now)).2.2 + 1)) ∧
    (∀ fuel attempt (st' : MultiBot.PoolState) i,
      (MultiBot.get_next_bot now st').1 = some i →
      (o attempt = Uploader.Outcome.peerInvalid ∨
        o attempt = Uploader.Outcome.validationFailed) →
      Uploader.uploadLoop o now (fuel + 1) attempt st' =
        ((Uploader.uploadLoop o now fuel (attempt + 1)
            (MultiBot.mark_invalid_for_channel
              (MultiBot.get_next_bot now st').2 i)).1,
          (Uploader.uploadLoop o now fuel (attempt + 1)
            (MultiBot.mark_invalid_for_channel
              (MultiBot.get_next_bot now st').2 i)).2.1,
          (Uploader.uploadLoop o now fuel (attempt + 1)
            (MultiBot.mark_invalid_for_channel
              (MultiBot.get_next_bot now st').2 i)).2.2 + 1)) ∧
    (∀ fuel attempt (st' : MultiBot.PoolState) i,
      (MultiBot.get_next_bot now st').1 = some i →
      o attempt = Uploader.Outcome.otherError →
      Uploader.uploadLoop o now (fuel + 1) attempt st' =
        ((Uploader.uploadLoop o now fuel (attempt + 1)
            (MultiBot.get_next_bot now st').2).1,
          (Uploader.uploadLoop o now fuel (attempt + 1)
            (MultiBot.get_next_bot now st').2).2.1,
          (Uploader.uploadLoop o now fuel (attempt + 1)
            (MultiBot.get_next_bot now st').2).2.2 + 1) ∧
        (MultiBot.get_next_bot now st').2.valid = st'.valid ∧
        (MultiBot.get_next_bot now st').2.unavailableUntil =
          st'.unavailableUntil) ∧
    ((∀ a, o a ≠ Uploader.Outcome.success) →
      (Uploader.upload_video true o now st).1 = false) := by
  refine ⟨rfl, ?_, ?_, ?_, ?_, ?_, ?_, ?_⟩
  · simpa [Uploader.upload_video] using
      Uploader.uploadLoop_attempts_le o now st.valid.length 0 st
  · intro fuel attempt st' hgb
    simp only [Uploader.uploadLoop, hgb]
  · intro fuel attempt st' i hgb ho
    simp only [Uploader.uploadLoop, hgb, ho]
  · intro fuel attempt st' i w hgb ho
    simp only [Uploader.uploadLoop, hgb, ho]
  · intro fuel attempt st' i hgb ho
    rcases ho with ho | ho <;> simp only [Uploader.uploadLoop, hgb, ho]
  · intro fuel attempt st' i hgb ho
    refine ⟨?_, rfl, rfl⟩
    simp only [Uploader.uploadLoop, hgb, ho]
  · intro h
    simpa [Uploader.upload_video] using
      Uploader.uploadLoop_no_success o now h st.valid.length 0 st

/-- Concrete instance of c1_upload_retry_loop: with a single bot whose every
attempt ends in a non-success outcome, the upload fails. -/
theorem c1_upload_retry_loop_witness :
    (Uploader.upload_video true (fun _ => Uploader.Outcome.otherError) 7
      ⟨[true], [0], 0⟩).1 = false :=
  (c1_upload_retry_loop (fun _ => Uploader.Outcome.otherError) 7
      ⟨[true], [0], 0⟩).2.2.2.2.2.2.2
    (fun _ h => Uploader.Outcome.noConfusion h)

/-- Claim C2: get_next_bot returns none exactly when every bot is invalid
for the channel or still unavailable (deciding within one bounded scan,
never blocking); any returned bot is valid and available; a bot marked
invalid stays invalid under any later operations and is never selected; a
bot marked unavailable for w seconds is not selected before now + w and,
if valid, the pool keeps offering some bot (in particular that one is
eligible) once the window has elapsed. -/
theorem c2_dispatcher_skip_logic (st : MultiBot.PoolState) (now : Nat)
    (hlen : st.unavailableUntil.length = st.valid.length)
    (hcur : st.currentIndex < st.valid.length) :
    ((MultiBot.get_next_bot now st).1 = none ↔
      ∀ i < st.valid.length, st.valid.getD i false = false ∨
        now < st.unavailableUntil.getD i 0) ∧
    (∀ i, (MultiBot.get_next_bot now st).1 = some i →
      i < st.valid.length ∧ st.valid.getD i false = true ∧
        st.unavailableUntil.getD i 0 ≤ now) ∧
    (∀ i, st.valid.getD i false = false → ∀ ops : List MultiBot.PoolOp,
      (MultiBot.runOps st ops).valid.getD i false = false ∧
      (MultiBot.get_next_bot now (MultiBot.runOps st ops)).1 ≠ some i) ∧
    (∀ i w tnow t, i < st.valid.length → t < tnow + w →
      (MultiBot.get_next_bot t (MultiBot.mark_unavailable st i w tnow)).1 ≠
        some i) ∧
    (∀ i w tnow t, i < st.valid.length → st.valid.getD i false = true →
      tnow + w ≤ t →
      (MultiBot.get_next_bot t (MultiBot.mark_unavailable st i w tnow)).1 ≠
        none) := by
  refine ⟨MultiBot.get_next_bot_none_iff now st hcur, ?_, ?_, ?_, ?_⟩
  · intro i h
    exact MultiBot.get_next_bot_some h
  · intro i hfalse ops
    have hrun := MultiBot.runOps_valid_false ops st hfalse
    refine ⟨hrun, ?_⟩
    intro hsome
    have htrue := (MultiBot.get_next_bot_some hsome).2.1
    rw [hrun] at htrue
    exact Bool.false_ne_true htrue
  · intro i w tnow t hi ht hsome
    have h3 := (MultiBot.get_next_bot_some hsome).2.2
    have hset : (st.unavailableUntil.set i (tnow + w)).getD i 0 = tnow + w :=
      MultiBot.getD_set_eq _ i _ (by omega)
    have : (MultiBot.mark_unavailable st i w tnow).unavailableUntil.getD i 0 =
        tnow + w := hset
    rw [this] at h3
    omega
  · intro i w tnow t hi hvalid hT hnone
    have hiff := MultiBot.get_next_bot_none_iff t
      (MultiBot.mark_unavailable st i w tnow) hcur
    have hfail := hiff.mp hnone i hi
    have hset : (st.unavailableUntil.set i (tnow + w)).getD i 0 = tnow + w :=
      MultiBot.getD_set_eq _ i _ (by omega)
    rcases hfail with hf | hf
    · have hf' : st.valid.getD i false = false := hf
      rw [hvalid] at hf'
      exact absurd hf' (by simp)
    · have : (MultiBot.mark_unavailable st i w tnow).unavailableUntil.getD i 0 =
          tnow + w := hset
      rw [this] at hf
      omega

/-- Concrete instance of c2_dispatcher_skip_logic: in a two-bot pool where
bot 1 is invalid, no operation sequence ever makes get_next_bot return
bot 1. -/
theorem c2_dispatcher_skip_logic_witness :
    (MultiBot.get_next_bot 5
      (MultiBot.runOps ⟨[true, false], [0, 0], 0⟩ [])).1 ≠ some 1 :=
  ((c2_dispatcher_skip_logic ⟨[true, false], [0, 0], 0⟩ 5 (by decide)
      (by decide)).2.2.1 1 (by decide) []).2

/-- Claim C3: with every bot valid and available, (pool size) sequential
get_next_bot calls return the bots in cyclic index order starting at the
cursor, each exactly once (the returned list is duplicate-free and contains
every index), and the cursor ends back where it started after the full
cycle, having advanced past each returned bot. -/
theorem c3_round_robin_fairness (v : List Bool) (u : List Nat)
    (now cursor : Nat) (hcur : cursor < v.length)
    (hall : ∀ i < v.length, v.getD i false = true ∧ u.getD i 0 ≤ now) :
    (MultiBot.selectSeq now ⟨v, u, cursor⟩ v.length).1 =
      (List.range v.length).map (fun j => some ((cursor + j) % v.length)) ∧
    (MultiBot.selectSeq now ⟨v, u, cursor⟩ v.length).1.Nodup ∧
    (∀ i < v.length,
      some i ∈ (MultiBot.selectSeq now ⟨v, u, cursor⟩ v.length).1) ∧
    (MultiBot.selectSeq now ⟨v, u, cursor⟩ v.length).2 = ⟨v, u, cursor⟩ := by
  obtain ⟨h1, h2⟩ := MultiBot.selectSeq_all_avail hall v.length cursor hcur
  refine ⟨h1, ?_, ?_, ?_⟩
  · rw [h1]
    refine List.Nodup.map_on ?_ (List.nodup_range _)
    intro x hx y hy hxy
    have hx' : x < v.length := List.mem_range.mp hx
    have hy' : y < v.length := List.mem_range.mp hy
    have hmm : (cursor + x) % v.length = (cursor + y) % v.length := by
      injection hxy
    exact MultiBot.mod_shift_inj hx' hy' hmm
  · intro i hi
    rw [h1]
    obtain ⟨j, hj, hji⟩ := MultiBot.exists_shift hcur hi
    refine List.mem_map.mpr ⟨j, List.mem_range.mpr hj, ?_⟩
    rw [hji]
  · rw [h2]
    have hmod : (cursor + v.length) % v.length = cursor := by
      rw [Nat.add_mod_right, Nat.mod_eq_of_lt hcur]
    rw [hmod]

/-- Concrete instance of c3_round_robin_fairness: a three-bot pool with the
cursor at 1 yields bots 1, 2, 0 in order. -/
theorem c3_round_robin_fairness_witness :
    (MultiBot.selectSeq 0 ⟨[true, true, true], [0, 0, 0], 1⟩ 3).1 =
      [some 1, some 2, some 0] :=
  ((c3_round_robin_fairness [true, true, true] [0, 0, 0] 0 1 (by decide)
      (by decide)).1).trans (by decide)

/-- Claim C6: the dedup store keeps at most one record per linkHash (save
preserves the invariant whatever the database outcome), a save whose
uniqueness-constrained insert fails because the key already exists is
reported as success with the store unchanged, and when two save calls race
on the same linkHash the sequentialized outcome is exactly one stored
record with both callers observing success. -/
theorem c6_dedup_idempotent_save (store : List Dedup.VideoDoc)
    (r1 r2 : Dedup.VideoDoc) (h12 : r1.linkHash = r2.linkHash)
    (h0 : Dedup.countHash store r1.linkHash = 0) :
    (∀ (s : List Dedup.VideoDoc) (q : Dedup.VideoDoc) (e : Bool) (h : Nat),
      Dedup.countHash s h ≤ 1 →
      Dedup.countHash (Dedup.save_video s q e).2 h ≤ 1) ∧
    (∀ (s : List Dedup.VideoDoc) (q : Dedup.VideoDoc),
      s.any (fun p => p.linkHash == q.linkHash) = true →
      Dedup.save_video s q false = (true, s)) ∧
    (Dedup.save_video store r1 false).1 = true ∧
    (Dedup.save_video (Dedup.save_video store r1 false).2 r2 false).1 = true ∧
    Dedup.countHash
      (Dedup.save_video (Dedup.save_video store r1 false).2 r2 false).2
      r1.linkHash = 1 := by
  have hdup : ∀ (s : List Dedup.VideoDoc) (q : Dedup.VideoDoc),
      s.any (fun p => p.linkHash == q.linkHash) = true →
      Dedup.save_video s q false = (true, s) := by
    intro s q hany
    simp [Dedup.save_video, Dedup.insert_one, hany]
  have hany1 : store.any (fun p => p.linkHash == r1.linkHash) = false := by
    rw [List.any_eq_false]
    intro a ha
    have := List.countP_eq_zero.mp h0 a ha
    simpa using this
  have hfresh : Dedup.save_video store r1 false = (true, r1 :: store) := by
    simp [Dedup.save_video, Dedup.insert_one, hany1]
  have hany2 : ((r1 :: store).any (fun p => p.linkHash == r2.linkHash)) = true := by
    simp [List.any_cons, h12]
  refine ⟨?_, hdup, ?_, ?_, ?_⟩
  · intro s q e h hle
    cases e with
    | true =>
      simpa [Dedup.save_video, Dedup.insert_one] using hle
    | false =>
      by_cases hany : s.any (fun p => p.linkHash == q.linkHash) = true
      · rw [hdup s q hany]
        exact hle
      · simp only [Dedup.save_video, Dedup.insert_one, if_neg hany,
          Bool.false_eq_true, if_false]
        simp only [Dedup.countHash, List.countP_cons] at *
        by_cases hq : (q.linkHash == h) = true
        · have hh : q.linkHash = h := by simpa using hq
          have hzero : s.countP (fun p => p.linkHash == h) = 0 := by
            rw [List.countP_eq_zero]
            intro a ha
            have hf : (s.any (fun p => p.linkHash == q.linkHash)) = false := by
              simpa using hany
            have hnot : ¬(a.linkHash == q.linkHash) = true :=
              (List.any_eq_false.mp hf) a ha
            simpa [hh] using hnot
          simp [hq, hzero]
        · simp only [Bool.not_eq_true] at hq
          simpa [hq] using hle
  · rw [hfresh]
  · rw [hfresh, hdup (r1 :: store) r2 hany2]
  · rw [hfresh, hdup (r1 :: store) r2 hany2]
    simp only [Dedup.countHash, List.countP_cons]
    simp only [Dedup.countHash] at h0
    rw [h0]
    simp

/-- Concrete instance of c6_dedup_idempotent_save: two saves racing on hash
5 against an empty store leave exactly one record. -/
theorem c6_dedup_idempotent_save_witness :
    Dedup.countHash
      (Dedup.save_video
        (Dedup.save_video [] ⟨5, 1, 100, 2, 3, 4⟩ false).2
        ⟨5, 1, 200, 6, 7, 8⟩ false).2 5 = 1 :=
  (c6_dedup_idempotent_save [] ⟨5, 1, 100, 2, 3, 4⟩ ⟨5, 1, 200, 6, 7, 8⟩
      (by decide) (by decide)).2.2.2.2

/-- Claim C10 counterexample: normalize_terabox_url is not idempotent.  On
the three-character input with codes [97, 32, 47] (letter, space, slash) the
first normalization strips the trailing slash and leaves a trailing space,
and a second normalization removes that space, giving a different string. -/
theorem c10_normalize_not_idempotent :
    LinkValidator.normalize_terabox_url
        (LinkValidator.normalize_terabox_url [97, 32, 47]) ≠
      LinkValidator.normalize_terabox_url [97, 32, 47] := by decide

/-- Claim C10 (amended): normalize_terabox_url is idempotent on every input
containing no whitespace character.  (In general it is not: stripping
trailing slashes can expose trailing whitespace that only the next
application removes; see the counterexample.) -/
theorem c10_normalize_idempotent_nospace (s : List Nat)
    (h : ∀ c ∈ s, LinkValidator.isSpaceChar c = false) :
    LinkValidator.normalize_terabox_url (LinkValidator.normalize_terabox_url s) =
      LinkValidator.normalize_terabox_url s := by
  have hv := LinkValidator.normalize_nospace h
  show LinkValidator.pyLower
      (LinkValidator.pyRstripSlash
        (LinkValidator.pyStrip (LinkValidator.normalize_terabox_url s))) =
    LinkValidator.normalize_terabox_url s
  rw [LinkValidator.pyStrip_of_nospace hv]
  show LinkValidator.pyLower
      (LinkValidator.pyRstripSlash
        (LinkValidator.pyLower
          (LinkValidator.pyRstripSlash (LinkValidator.pyStrip s)))) =
    LinkValidator.normalize_terabox_url s
  rw [LinkValidator.pyRstripSlash_pyLower, LinkValidator.pyRstripSlash_idem,
    LinkValidator.pyLower_idem]
  rfl

/-- Concrete instance of c10_normalize_idempotent_nospace on the codes of
the string with letters H t T p and a trailing slash. -/
theorem c10_normalize_idempotent_nospace_witness :
    LinkValidator.normalize_terabox_url
        (LinkValidator.normalize_terabox_url [72, 116, 84, 112, 47]) =
      LinkValidator.normalize_terabox_url [72, 116, 84, 112, 47] :=
  c10_normalize_idempotent_nospace [72, 116, 84, 112, 47] (by decide)

/-- Claim C5 counterexample: a job that resolves, downloads, fetches a
thumbnail and then fails at upload creates two temporary files, not one,
and the thumbnail is still on disk when the job terminates — the finally
block only removes the downloaded video, and the thumbnail cleanup runs
only on the success path. -/
theorem c5_cleanup_counterexample :
    ¬((Worker.process_job
          ⟨true, true, true, false, true, true, false, true,
            Worker.RaiseAt.never⟩).created.length = 1 ∧
      (Worker.process_job
          ⟨true, true, true, false, true, true, false, true,
            Worker.RaiseAt.never⟩).disk = []) := by decide

set_option maxHeartbeats 2000000 in
set_option maxRecDepth 8000 in
/-- Claim C5 (amended): a job creates up to two temporary files (the
downloaded video and the thumbnail; no thumbnail-embedded video is ever
written, since FFmpegHelper has no embed_thumbnail method and worker.py
line 344 always raises AttributeError, caught at line 359), not exactly
one; only files the job created can remain; the downloaded video — the
file handed to the uploader — is removed on every exit path; when no
thumbnail file was created every temporary file is removed on every exit
path; but when the job fails at delivery (or raises) after a thumbnail was
downloaded, the thumbnail remains on disk. -/
theorem c5_cleanup_guarantee (env : Worker.JobEnv) :
    (Worker.process_job env).created.length ≤ 2 ∧
    (∀ f ∈ ((Worker.process_job env).uploaded).toList,
      f ∉ (Worker.process_job env).disk) ∧
    ((Worker.process_job env).disk.all
      (fun f => f ∈ (Worker.process_job env).created) = true) ∧
    (env.hasThumbUrl = false ∨ env.thumbOk = false →
      (Worker.process_job env).disk = []) ∧
    (env.uploadOk = true → env.raiseAt ≠ Worker.RaiseAt.afterThumbStage →
      (Worker.process_job env).disk = []) ∧
    ((decide (env.raiseAt = Worker.RaiseAt.never) && env.resolves &&
        env.parses && env.downloadOk && env.hasThumbUrl && env.thumbOk &&
        !env.uploadOk) = true →
      Worker.TempFile.thumb ∈ (Worker.process_job env).disk) := by
  obtain ⟨r, p, d, dd, ht, t, u, uc, ra⟩ := env
  cases r <;> cases p <;> cases d <;> cases dd <;> cases ht <;> cases t <;>
    cases u <;> cases uc <;> cases ra <;> decide

/-- Concrete instance of c5_cleanup_guarantee: a fully successful job with a
thumbnail leaves no temporary file on disk. -/
theorem c5_cleanup_guarantee_witness :
    (Worker.process_job
      ⟨true, true, true, false, true, true, true, true,
        Worker.RaiseAt.never⟩).disk = [] :=
  (c5_cleanup_guarantee
      ⟨true, true, true, false, true, true, true, true,
        Worker.RaiseAt.never⟩).2.2.2.2.1 rfl (by decide)

/-- Claim C9 counterexample: two exit paths of process_job produce zero
terminal messages rather than exactly one.  First, when an unexpected
exception fires inside the job, the handler at worker.py lines 467-472
references ERROR_PROCESSING, which is not among the names imported at
lines 11-17, so the NameError is swallowed by the bare except and nothing
is sent.  Second, when the channel upload succeeds but the copy of the
video to the user fails, telegram_uploader.py lines 254-256 swallow the
error and upload_video still returns True, so the job ends with no message
to the user. -/
theorem c9_terminal_message_counterexample :
    (Worker.process_job
        ⟨true, true, true, false, false, false, true, true,
          Worker.RaiseAt.beforeResolve⟩).messages = [] ∧
    (Worker.process_job
        ⟨true, true, true, false, false, false, true, false,
          Worker.RaiseAt.never⟩).messages = [] := by decide

set_option maxHeartbeats 2000000 in
set_option maxRecDepth 8000 in
/-- Claim C9 (amended): process_job sends exactly one terminal message on
every exit path except two, where it sends none: when the unexpected
exception fires (the handler drops the notification via the ERROR_PROCESSING
NameError), and when delivery succeeded at the channel but the best-effort
copy to the user failed (deliberately still treated as success). -/
theorem c9_terminal_message_count (env : Worker.JobEnv) :
    (Worker.process_job env).messages.length =
      if Worker.raiseFires env then 0
      else if Worker.deliverySucceeds env && !env.userCopyOk then 0
      else 1 := by
  obtain ⟨r, p, d, dd, ht, t, u, uc, ra⟩ := env
  cases r <;> cases p <;> cases d <;> cases dd <;> cases ht <;> cases t <;>
    cases u <;> cases uc <;> cases ra <;> decide
